import Mathlib

/-!
Verification of the search-and-filter query engine of the MUT Improv Games
web application (js/search.js together with the data-management module it
loads, exposing searchGames, filterGames, getCategories, loadGamesData and
applyFiltersAndSearch).

The JavaScript code is shallowly embedded: JS strings are Lean strings,
JS string operations (toLowerCase, trim, includes) are modelled character
wise over the underlying character list, JS objects with optional fields
become structures with Option fields, and JS truthiness tests on strings
and numbers are made explicit.  A JS TypeError (for example dereferencing
a missing playerCount) is modelled by returning none from the affected
operation.
-/

namespace MutGames

/-! JS string primitives -/

/-- Model of the character-level effect of JavaScript toLowerCase
(basic-latin case folding, as in Lean's Char.toLower). -/
def jsCharLower (c : Char) : Char := Char.toLower c

/-- Model of JavaScript String.prototype.toLowerCase: lower-case every
character. -/
def jsToLower (s : String) : String := String.mk (s.data.map jsCharLower)

/-- Model of JavaScript String.prototype.trim: drop leading and trailing
whitespace characters. -/
def jsTrim (s : String) : String :=
  String.mk ((((s.data.dropWhile Char.isWhitespace).reverse).dropWhile Char.isWhitespace).reverse)

/-- Does the pattern occur at the head of the character list? -/
def leadingMatch : List Char → List Char → Bool
  | [], _ => true
  | _ :: _, [] => false
  | p :: ps, c :: cs => p == c && leadingMatch ps cs

/-- Does the pattern occur anywhere in the character list? -/
def containsSub (pat : List Char) : List Char → Bool
  | [] => leadingMatch pat []
  | c :: cs => leadingMatch pat (c :: cs) || containsSub pat cs

/-- Model of JavaScript String.prototype.includes: substring containment. -/
def jsIncludes (s pat : String) : Bool := containsSub pat.data s.data

/-! Data model (records of data/mutgames.json after loading) -/

/-- Player-count structure of a game record. -/
structure PlayerCount where
  min : Nat
  max : Nat
  optimal : Nat
deriving DecidableEq

/-- Setup block of a game record; the description is optional (and may be
the empty string, which JS truthiness treats like an absent value). -/
structure Setup where
  description : Option String := none
deriving DecidableEq

/-- A tip is either a plain string or a structure carrying a role label
and a list of tip strings, mirroring the two runtime shapes accepted by
searchGames. -/
inductive Tip where
  | plain : String → Tip
  | structured : String → List String → Tip
deriving DecidableEq

/-- A game record as it exists after loadGamesData has attached the
category information.  Optional JSON fields are Options. -/
structure Game where
  id : String := ""
  name : String := ""
  category : String := ""
  categoryId : String := ""
  difficulty : String := ""
  setup : Option Setup := none
  rules : Option (List String) := none
  tips : Option (List Tip) := none
  examples : Option (List String) := none
  tags : Option (List String) := none
  playerCount : Option PlayerCount := none
  audienceParticipation : Option Bool := none
deriving DecidableEq

/-- Filter criteria accepted by filterGames; none models a field that is
undefined (or null) on the JS filters object. -/
structure Filters where
  category : Option String := none
  difficulty : Option String := none
  minPlayers : Option Nat := none
  maxPlayers : Option Nat := none
  audienceParticipation : Option Bool := none
deriving DecidableEq

/-- JS truthiness of an optional string: undefined and the empty string
are falsy. -/
def truthyStr : Option String → Bool
  | some s => s != ""
  | none => false

/-- JS truthiness of an optional number: undefined and 0 are falsy. -/
def truthyNat : Option Nat → Bool
  | some n => n != 0
  | none => false

/-! searchGames (js/search.js, data module lines 333-375) -/

/-- Match test applied to one element of a game's tips array: a plain
string is tested directly; a structured tip is tested on the strings of
its tips list, guarded by JS truthiness of its role label. -/
def tipMatch (searchTerm : String) : Tip → Bool
  | Tip.plain s => jsIncludes (jsToLower s) searchTerm
  | Tip.structured role tips =>
    if role != "" then tips.any (fun t => jsIncludes (jsToLower t) searchTerm) else false

/-- Setup-description clause of the searchGames predicate: the JS guard
chain setup, then description (truthiness: absent or empty skips), then
the substring test. -/
def descMatch (searchTerm : String) (os : Option Setup) : Bool :=
  match os with
  | some st =>
    match st.description with
    | some d => d != "" && jsIncludes (jsToLower d) searchTerm
    | none => false
  | none => false

/-- Clause of the searchGames predicate for an optional array of strings
(rules, examples, tags): present and some element contains the term. -/
def listFieldMatch (searchTerm : String) (of : Option (List String)) : Bool :=
  match of with
  | some l => l.any (fun s => jsIncludes (jsToLower s) searchTerm)
  | none => false

/-- Tips clause of the searchGames predicate: present and some tip
matches per tipMatch. -/
def tipsFieldMatch (searchTerm : String) (ot : Option (List Tip)) : Bool :=
  match ot with
  | some l => l.any (tipMatch searchTerm)
  | none => false

/-- Predicate of the filter inside searchGames: does any searchable field
of the game contain the (already normalized) search term?  Clauses appear
in source order. -/
def gameMatches (searchTerm : String) (game : Game) : Bool :=
  jsIncludes (jsToLower game.name) searchTerm ||
  descMatch searchTerm game.setup ||
  listFieldMatch searchTerm game.rules ||
  tipsFieldMatch searchTerm game.tips ||
  listFieldMatch searchTerm game.examples ||
  listFieldMatch searchTerm game.tags ||
  (game.category != "" && jsIncludes (jsToLower game.category) searchTerm)

/-- Embedding of searchGames: empty or all-whitespace queries return the
collection unchanged; otherwise the query is lower-cased, trimmed and
matched against every record. -/
def searchGames (games : List Game) (query : String) : List Game :=
  if query = "" ∨ jsTrim query = "" then games
  else games.filter (gameMatches (jsTrim (jsToLower query)))

/-! filterGames (js/search.js, data module lines 380-409) -/

/-- Audience-participation stage of the filterGames predicate. -/
def apCheck (filters : Filters) (game : Game) : Option Bool :=
  match filters.audienceParticipation with
  | none => some true
  | some b => if game.audienceParticipation != some b then some false else some true

/-- Max-players stage of the filterGames predicate; dereferencing a
missing playerCount is the modelled TypeError (none). -/
def maxCheck (filters : Filters) (game : Game) : Option Bool :=
  if truthyNat filters.maxPlayers then
    match game.playerCount with
    | none => none
    | some pc =>
      if filters.maxPlayers.getD 0 < pc.max then some false else apCheck filters game
  else apCheck filters game

/-- Min-players stage of the filterGames predicate; dereferencing a
missing playerCount is the modelled TypeError (none). -/
def minCheck (filters : Filters) (game : Game) : Option Bool :=
  if truthyNat filters.minPlayers then
    match game.playerCount with
    | none => none
    | some pc =>
      if pc.min < filters.minPlayers.getD 0 then some false else maxCheck filters game
  else maxCheck filters game

/-- Per-record predicate of filterGames, evaluated in source order:
category, difficulty, min players, max players, audience participation.
Returns none when the JS code would throw. -/
def filterPred (filters : Filters) (game : Game) : Option Bool :=
  if truthyStr filters.category && game.category != filters.category.getD "" then some false
  else if truthyStr filters.difficulty && game.difficulty != filters.difficulty.getD "" then some false
  else minCheck filters game

/-- Embedding of filterGames: Array.prototype.filter over the predicate;
an exception anywhere aborts the whole call (none). -/
def filterGames : List Game → Filters → Option (List Game)
  | [], _ => some []
  | g :: gs, f =>
    match filterPred f g with
    | none => none
    | some b =>
      match filterGames gs f with
      | none => none
      | some rest => some (if b then g :: rest else rest)

/-- Embedding of applyFiltersAndSearch (search.js lines 79-100): search
first, then filter with a filters object carrying exactly the category
and difficulty selector values. -/
def applyFiltersAndSearch (games : List Game) (query category difficulty : String) :
    Option (List Game) :=
  filterGames (searchGames games query) { category := some category, difficulty := some difficulty }

/-! loadGamesData and getCategories (data module lines 272-314) -/

/-- One category grouping of the source document. -/
structure SourceCategory where
  id : String := ""
  name : String := ""
  games : List Game := []
deriving DecidableEq

/-- Category names collected into the module-level Set while loading:
insertion order, first occurrence kept, duplicates ignored. -/
def loadCategoryNames (cats : List SourceCategory) : List String :=
  cats.foldl (fun acc c => if c.name ∈ acc then acc else acc ++ [c.name]) []

/-- Name-comparison used by the alphabetical sort of loadGamesData
(localeCompare modelled by the default string order). -/
def gameNameLe (a b : Game) : Prop := a.name ≤ b.name

instance : DecidableRel gameNameLe := fun a b =>
  decidable_of_iff (a.name.toList ≤ b.name.toList) String.le_iff_toList_le.symm

/-- Flattened record collection produced by loadGamesData: every game of
every grouping, with the grouping's name and id denormalized onto it,
sorted alphabetically by name. -/
def loadedGames (cats : List SourceCategory) : List Game :=
  (cats.flatMap (fun c => c.games.map (fun g => { g with category := c.name, categoryId := c.id })))
    |>.insertionSort gameNameLe

/-- String order used to model the default (case-sensitive) sort of
Array.prototype.sort. -/
def strLe (a b : String) : Prop := a ≤ b

instance : DecidableRel strLe := fun a b =>
  decidable_of_iff (a.toList ≤ b.toList) String.le_iff_toList_le.symm

instance : IsTotal String strLe := ⟨fun a b => le_total a b⟩

instance : IsTrans String strLe :=
  ⟨fun a b c h1 h2 => le_trans (show a ≤ b from h1) (show b ≤ c from h2)⟩

/-- Embedding of getCategories: the collected category names, sorted
ascending with the default string ordering. -/
def getCategories (cats : List SourceCategory) : List String :=
  (loadCategoryNames cats).insertionSort strLe

/-- Category constraint of the specification: an absent or empty category
field imposes nothing, otherwise the record's category must equal it. -/
def catOk (filters : Filters) (game : Game) : Bool :=
  match filters.category with
  | some c => if c != "" then game.category == c else true
  | none => true

/-- Difficulty constraint of the specification. -/
def diffOk (filters : Filters) (game : Game) : Bool :=
  match filters.difficulty with
  | some d => if d != "" then game.difficulty == d else true
  | none => true

/-- Min-players constraint of the specification: the record's min must be
at least the bound; a record missing playerCount does not match. -/
def minOk (filters : Filters) (game : Game) : Bool :=
  match filters.minPlayers with
  | some m => if m != 0 then
      (match game.playerCount with
       | some pc => decide (m ≤ pc.min)
       | none => false)
    else true
  | none => true

/-- Max-players constraint of the specification: the record's max must be
at most the bound; a record missing playerCount does not match. -/
def maxOk (filters : Filters) (game : Game) : Bool :=
  match filters.maxPlayers with
  | some mx => if mx != 0 then
      (match game.playerCount with
       | some pc => decide (pc.max ≤ mx)
       | none => false)
    else true
  | none => true

/-- Audience-participation constraint of the specification. -/
def apOk (filters : Filters) (game : Game) : Bool :=
  match filters.audienceParticipation with
  | some b => game.audienceParticipation == some b
  | none => true

/-- Predicate written from the specification's words (section 4.1.2):
logical AND of all present filter dimensions. -/
def specFilterOk (filters : Filters) (game : Game) : Bool :=
  catOk filters game && diffOk filters game && minOk filters game &&
    maxOk filters game && apOk filters game

/-- Tip rule written from the specification's words, amended with the
implemented requirement that a structured tip's role label be non-empty:
a plain string is tested directly, a structured tip on the strings of its
tips list; the role label text itself is never searched. -/
def specTipOk (term : String) : Tip → Bool
  | Tip.plain s => jsIncludes (jsToLower s) term
  | Tip.structured role tips =>
    role != "" && tips.any (fun t => jsIncludes (jsToLower t) term)

/-- Setup-description clause written from the specification's words: the
description, when present, is tested for containment (no emptiness
guard). -/
def specDescMatch (term : String) (os : Option Setup) : Bool :=
  match os with
  | some st =>
    match st.description with
    | some d => jsIncludes (jsToLower d) term
    | none => false
  | none => false

/-- Tips clause written from the specification's words, using the amended
tip rule. -/
def specTipsMatch (term : String) (ot : Option (List Tip)) : Bool :=
  match ot with
  | some l => l.any (specTipOk term)
  | none => false

/-- Search predicate written from the specification's words (sections 3
and 4.1.1): the record matches iff any searchable field (name, setup
description, rules strings, tips per the tip rule, examples strings, tag
strings, category) contains the normalized term as a substring,
case-insensitively. -/
def specSearchMatch (term : String) (game : Game) : Bool :=
  jsIncludes (jsToLower game.name) term ||
  specDescMatch term game.setup ||
  listFieldMatch term game.rules ||
  specTipsMatch term game.tips ||
  listFieldMatch term game.examples ||
  listFieldMatch term game.tags ||
  jsIncludes (jsToLower game.category) term

/-- Tip rule exactly as the specification claims it (section 4.1.1 d): a
structured tip is tested on every string of its tips list, with no
condition on the role label. -/
def specTipClaimed (term : String) : Tip → Bool
  | Tip.plain s => jsIncludes (jsToLower s) term
  | Tip.structured _ tips => tips.any (fun t => jsIncludes (jsToLower t) term)

/-- Search predicate exactly as the claim states it, using the claimed
(unamended) tip rule. -/
def specSearchMatchClaimed (term : String) (game : Game) : Bool :=
  jsIncludes (jsToLower game.name) term ||
  specDescMatch term game.setup ||
  listFieldMatch term game.rules ||
  (match game.tips with
   | some l => l.any (specTipClaimed term)
   | none => false) ||
  listFieldMatch term game.examples ||
  listFieldMatch term game.tags ||
  jsIncludes (jsToLower game.category) term

/-! Concrete records used by witnesses and counterexamples -/

/-- Record A of the specification's concrete scenario (section 8). -/
def gFreeze : Game :=
  { name := "Freeze Tag", category := "Opening Games", difficulty := "beginner",
    playerCount := some ⟨4, 10, 6⟩ }

/-- Record B of the specification's concrete scenario (section 8). -/
def gAlphabet : Game :=
  { name := "Alphabet Game", category := "Scene Games", difficulty := "advanced",
    playerCount := some ⟨2, 2, 2⟩ }

/-- Record C of the specification's concrete scenario (section 8). -/
def gFrame : Game :=
  { name := "Freeze Frame", category := "Opening Games", difficulty := "intermediate",
    playerCount := some ⟨3, 8, 5⟩ }

/-- A record with no playerCount attribute. -/
def gNoPC : Game := { name := "Space Jump", category := "Warmups", difficulty := "beginner" }

/-- Another record with no playerCount attribute. -/
def gNoPC2 : Game := { name := "Mystery Box", category := "Scene Games", difficulty := "advanced" }

/-- A record whose only searchable occurrence of the word energy is a
plain-string tip. -/
def gPlainTip : Game := { name := "Alpha", tips := some [Tip.plain "Keep energy high"] }

/-- A record whose only searchable occurrence of the words energy and
host is a structured tip with role label host. -/
def gHostTip : Game :=
  { name := "Beta", tips := some [Tip.structured "host" ["Keep energy high"]] }

/-- A record whose only searchable occurrence of the word energy sits in
a structured tip with an empty role label. -/
def gEmptyRole : Game :=
  { name := "Gamma", tips := some [Tip.structured "" ["Keep energy high"]] }

/-- A record whose only searchable occurrence of the word zebra sits in a
structured tip with an empty role label. -/
def gZebraTip : Game := { name := "Delta", tips := some [Tip.structured "" ["Zebra dance"]] }

/-- Partition example record in category warmup. -/
def g7a : Game := { name := "PartA", category := "warmup" }

/-- Partition example record in category scene. -/
def g7b : Game := { name := "PartB", category := "scene" }

/-- Second partition example record in category warmup. -/
def g7c : Game := { name := "PartC", category := "warmup" }

/-- A record whose denormalized category is the empty string. -/
def g7e : Game := { name := "Empty", category := "" }

/-- A record in category x. -/
def g7x : Game := { name := "Xylo", category := "x" }

/-- A record with audienceParticipation true. -/
def gApT : Game := { name := "Crowd", audienceParticipation := some true }

/-- A source grouping named a containing one game. -/
def scA : SourceCategory := { id := "1", name := "a", games := [{ name := "Solo" }] }

/-- A source grouping named b containing no games. -/
def scB : SourceCategory := { id := "2", name := "b", games := [] }

/-! Basic facts about the JS string model -/

theorem char_toNat_ofNat (n : Nat) (h : n.isValidChar) : (Char.ofNat n).toNat = n := by
  simp [Char.ofNat, dif_pos h, Char.ofNatAux, Char.toNat, UInt32.toNat, BitVec.toNat_ofNatLt]

theorem ws_vals (d : Char) (hd : d.isWhitespace = true) :
    d.toNat = 32 ∨ d.toNat = 9 ∨ d.toNat = 13 ∨ d.toNat = 10 := by
  simp [Char.isWhitespace] at hd
  rcases hd with ((h | h) | h) | h <;> (subst h; decide)

theorem isWhitespace_jsCharLower (c : Char) :
    (jsCharLower c).isWhitespace = c.isWhitespace := by
  unfold jsCharLower Char.toLower
  by_cases h : c.toNat ≥ 65 ∧ c.toNat ≤ 90
  · rw [if_pos h]
    have hv : (c.toNat + 32).isValidChar := Or.inl (by omega)
    have h1 : (Char.ofNat (c.toNat + 32)).toNat = c.toNat + 32 := char_toNat_ofNat _ hv
    have h3 : c.isWhitespace = false := by
      cases hw : c.isWhitespace
      · rfl
      · rcases ws_vals c hw with h' | h' | h' | h' <;> omega
    rw [h3]
    cases hw : (Char.ofNat (c.toNat + 32)).isWhitespace
    · rfl
    · rcases ws_vals _ hw with h' | h' | h' | h' <;> omega
  · rw [if_neg h]

theorem mk_eq_empty_iff (l : List Char) : String.mk l = "" ↔ l = [] := by
  constructor
  · intro h
    have := congrArg String.data h
    simpa using this
  · intro h
    rw [h]

theorem jsTrim_jsToLower (s : String) : jsTrim (jsToLower s) = jsToLower (jsTrim s) := by
  unfold jsTrim jsToLower
  apply congrArg
  have hcomp : (Char.isWhitespace ∘ jsCharLower) = Char.isWhitespace := by
    funext c
    exact isWhitespace_jsCharLower c
  have step : ∀ l : List Char, List.dropWhile Char.isWhitespace (List.map jsCharLower l) =
      List.map jsCharLower (List.dropWhile Char.isWhitespace l) := by
    intro l
    rw [List.dropWhile_map, hcomp]
  rw [step, ← List.map_reverse, step, ← List.map_reverse]

theorem jsTrim_jsToLower_ne (s : String) (h : jsTrim s ≠ "") : jsTrim (jsToLower s) ≠ "" := by
  rw [jsTrim_jsToLower]
  intro hc
  unfold jsToLower at hc
  rw [mk_eq_empty_iff] at hc
  simp at hc
  apply h
  apply String.ext
  simpa using hc

theorem jsToLower_empty : jsToLower "" = "" := rfl

theorem string_ne_empty_data (s : String) (h : s ≠ "") : s.data ≠ [] := by
  intro hd
  apply h
  apply String.ext
  simpa using hd

theorem jsIncludes_empty_left (pat : String) (h : pat ≠ "") : jsIncludes "" pat = false := by
  unfold jsIncludes containsSub
  cases hd : pat.data with
  | nil => exact absurd hd (string_ne_empty_data pat h)
  | cons c cs => rfl

/-! Specification-side filter predicate and its agreement with filterPred -/

theorem apCheck_eq (f : Filters) (g : Game) : apCheck f g = some (apOk f g) := by
  unfold apCheck apOk
  cases f.audienceParticipation with
  | none => rfl
  | some b =>
    cases h : g.audienceParticipation == some b <;> simp [h, bne]

theorem maxOk_of_inactive (f : Filters) (g : Game) (h : truthyNat f.maxPlayers = false) :
    maxOk f g = true := by
  unfold maxOk
  cases hm : f.maxPlayers with
  | none => rfl
  | some mx =>
    rw [hm] at h
    simp [truthyNat] at h
    simp [h]

theorem minOk_of_inactive (f : Filters) (g : Game) (h : truthyNat f.minPlayers = false) :
    minOk f g = true := by
  unfold minOk
  cases hm : f.minPlayers with
  | none => rfl
  | some m =>
    rw [hm] at h
    simp [truthyNat] at h
    simp [h]

theorem maxCheck_eq (f : Filters) (g : Game)
    (h : truthyNat f.maxPlayers = true → (g.playerCount).isSome) :
    maxCheck f g = some (maxOk f g && apOk f g) := by
  unfold maxCheck
  cases t : truthyNat f.maxPlayers with
  | false => rw [if_neg (by simp [t]), apCheck_eq, maxOk_of_inactive f g t, Bool.true_and]
  | true =>
    rw [if_pos (by simp [t])]
    cases hm : f.maxPlayers with
    | none => rw [hm] at t; simp [truthyNat] at t
    | some mx =>
      rw [hm] at t
      simp only [truthyNat] at t
      cases hpc : g.playerCount with
      | none =>
        exfalso
        have := h (by rw [hm]; simpa [truthyNat] using t)
        rw [hpc] at this
        simp at this
      | some pc =>
        have hmaxOk : maxOk f g = decide (pc.max ≤ mx) := by
          unfold maxOk
          rw [hm, hpc]
          simp [t]
        rw [hmaxOk]
        simp only [hm, Option.getD_some]
        by_cases hlt : mx < pc.max
        · rw [if_pos hlt]
          have : decide (pc.max ≤ mx) = false := by simp; omega
          rw [this, Bool.false_and]
        · rw [if_neg hlt, apCheck_eq]
          have : decide (pc.max ≤ mx) = true := by simp; omega
          rw [this, Bool.true_and]

theorem minCheck_eq (f : Filters) (g : Game)
    (h : truthyNat f.minPlayers = true ∨ truthyNat f.maxPlayers = true → (g.playerCount).isSome) :
    minCheck f g = some (minOk f g && (maxOk f g && apOk f g)) := by
  unfold minCheck
  cases t : truthyNat f.minPlayers with
  | false =>
    rw [if_neg (by simp [t]), maxCheck_eq f g (fun hmx => h (Or.inr hmx)),
      minOk_of_inactive f g t, Bool.true_and]
  | true =>
    rw [if_pos (by simp [t])]
    cases hm : f.minPlayers with
    | none => rw [hm] at t; simp [truthyNat] at t
    | some m =>
      rw [hm] at t
      simp only [truthyNat] at t
      cases hpc : g.playerCount with
      | none =>
        exfalso
        have := h (Or.inl (by rw [hm]; simpa [truthyNat] using t))
        rw [hpc] at this
        simp at this
      | some pc =>
        have hminOk : minOk f g = decide (m ≤ pc.min) := by
          unfold minOk
          rw [hm, hpc]
          simp [t]
        rw [hminOk]
        simp only [hm, Option.getD_some]
        by_cases hlt : pc.min < m
        · rw [if_pos hlt]
          have : decide (m ≤ pc.min) = false := by simp; omega
          rw [this, Bool.false_and]
        · rw [if_neg hlt, maxCheck_eq f g (fun hmx => h (Or.inr hmx))]
          have : decide (m ≤ pc.min) = true := by simp; omega
          rw [this, Bool.true_and]

theorem catOk_false (f : Filters) (g : Game)
    (h : (truthyStr f.category && g.category != f.category.getD "") = true) :
    catOk f g = false := by
  rw [Bool.and_eq_true] at h
  obtain ⟨h1, h2⟩ := h
  unfold catOk
  cases hc : f.category with
  | none => rw [hc] at h1; simp [truthyStr] at h1
  | some c =>
    rw [hc] at h1 h2
    simp only [truthyStr] at h1
    simp only [Option.getD_some] at h2
    have hb : (g.category == c) = false := by
      cases hcc : g.category == c
      · rfl
      · simp [bne, hcc] at h2
    simp [h1, hb]

theorem catOk_true (f : Filters) (g : Game)
    (h : (truthyStr f.category && g.category != f.category.getD "") = false) :
    catOk f g = true := by
  unfold catOk
  cases hc : f.category with
  | none => rfl
  | some c =>
    rw [hc] at h
    simp only [truthyStr, Option.getD_some] at h
    cases ht : (c != "") with
    | false => simp [ht]
    | true =>
      rw [ht, Bool.true_and] at h
      have hb : (g.category == c) = true := by
        cases hcc : g.category == c
        · simp [bne, hcc] at h
        · rfl
      simp [ht, hb]

theorem diffOk_false (f : Filters) (g : Game)
    (h : (truthyStr f.difficulty && g.difficulty != f.difficulty.getD "") = true) :
    diffOk f g = false := by
  rw [Bool.and_eq_true] at h
  obtain ⟨h1, h2⟩ := h
  unfold diffOk
  cases hc : f.difficulty with
  | none => rw [hc] at h1; simp [truthyStr] at h1
  | some d =>
    rw [hc] at h1 h2
    simp only [truthyStr] at h1
    simp only [Option.getD_some] at h2
    have hb : (g.difficulty == d) = false := by
      cases hcc : g.difficulty == d
      · rfl
      · simp [bne, hcc] at h2
    simp [h1, hb]

theorem diffOk_true (f : Filters) (g : Game)
    (h : (truthyStr f.difficulty && g.difficulty != f.difficulty.getD "") = false) :
    diffOk f g = true := by
  unfold diffOk
  cases hc : f.difficulty with
  | none => rfl
  | some d =>
    rw [hc] at h
    simp only [truthyStr, Option.getD_some] at h
    cases ht : (d != "") with
    | false => simp [ht]
    | true =>
      rw [ht, Bool.true_and] at h
      have hb : (g.difficulty == d) = true := by
        cases hcc : g.difficulty == d
        · simp [bne, hcc] at h
        · rfl
      simp [ht, hb]

theorem filterPred_eq_spec (f : Filters) (g : Game)
    (h : truthyNat f.minPlayers = true ∨ truthyNat f.maxPlayers = true → (g.playerCount).isSome) :
    filterPred f g = some (specFilterOk f g) := by
  unfold filterPred specFilterOk
  by_cases hc : (truthyStr f.category && g.category != f.category.getD "") = true
  · rw [if_pos hc, catOk_false f g hc]
    simp
  · have hc2 : (truthyStr f.category && g.category != f.category.getD "") = false := by
      simpa using hc
    rw [if_neg hc, catOk_true f g hc2]
    by_cases hd : (truthyStr f.difficulty && g.difficulty != f.difficulty.getD "") = true
    · rw [if_pos hd, diffOk_false f g hd]
      simp
    · have hd2 : (truthyStr f.difficulty && g.difficulty != f.difficulty.getD "") = false := by
        simpa using hd
      rw [if_neg hd, diffOk_true f g hd2, minCheck_eq f g h]
      simp [Bool.and_assoc]

theorem filterGames_eq_spec (f : Filters) (R : List Game)
    (h : ∀ g ∈ R, truthyNat f.minPlayers = true ∨ truthyNat f.maxPlayers = true →
      (g.playerCount).isSome = true) :
    filterGames R f = some (R.filter (specFilterOk f)) := by
  induction R with
  | nil => rfl
  | cons g gs ih =>
    have hg := filterPred_eq_spec f g (h g (by simp))
    have ih2 := ih (fun x hx => h x (by simp [hx]))
    simp only [filterGames, hg, ih2, List.filter_cons]

theorem filterGames_none_of_mem (f : Filters) (R : List Game) (g : Game)
    (hg : g ∈ R) (hnone : filterPred f g = none) : filterGames R f = none := by
  induction R with
  | nil => cases hg
  | cons x xs ih =>
    rcases List.mem_cons.mp hg with rfl | hx
    · simp [filterGames, hnone]
    · cases hp : filterPred f x with
      | none => simp [filterGames, hp]
      | some b => simp [filterGames, hp, ih hx]

theorem filterPred_of_mem_filterGames (f : Filters) (R : List Game) (l : List Game) (g : Game)
    (hl : filterGames R f = some l) (hg : g ∈ l) : filterPred f g = some true := by
  induction R generalizing l with
  | nil =>
    simp [filterGames] at hl
    subst hl
    cases hg
  | cons x xs ih =>
    cases hp : filterPred f x with
    | none => simp [filterGames, hp] at hl
    | some b =>
      cases hrest : filterGames xs f with
      | none => simp [filterGames, hp, hrest] at hl
      | some rest =>
        simp [filterGames, hp, hrest] at hl
        cases b with
        | true =>
          subst hl
          rcases List.mem_cons.mp hg with rfl | hgr
          · exact hp
          · exact ih rest hrest hgr
        | false =>
          subst hl
          exact ih rest hrest hg

/-! Specification-side search predicate and its agreement with gameMatches -/

theorem tipMatch_eq_specTipOk (term : String) (t : Tip) : tipMatch term t = specTipOk term t := by
  cases t with
  | plain s => rfl
  | structured role tips =>
    unfold tipMatch specTipOk
    cases h : (role != "") <;> simp [h]

theorem descMatch_eq_spec (term : String) (os : Option Setup) (h : term ≠ "") :
    descMatch term os = specDescMatch term os := by
  unfold descMatch specDescMatch
  rcases os with _ | ⟨od⟩
  · rfl
  · rcases od with _ | d
    · rfl
    · by_cases hd : d = ""
      · subst hd
        simp [jsToLower_empty, jsIncludes_empty_left term h]
      · simp [bne, hd]

theorem tipsFieldMatch_eq_spec (term : String) (ot : Option (List Tip)) :
    tipsFieldMatch term ot = specTipsMatch term ot := by
  unfold tipsFieldMatch specTipsMatch
  rcases ot with _ | l
  · rfl
  · have : tipMatch term = specTipOk term := by
      funext t
      exact tipMatch_eq_specTipOk term t
    rw [this]

theorem catClause_eq_spec (term : String) (c : String) (h : term ≠ "") :
    (c != "" && jsIncludes (jsToLower c) term) = jsIncludes (jsToLower c) term := by
  by_cases hc : c = ""
  · subst hc
    simp [jsToLower_empty, jsIncludes_empty_left term h]
  · simp [bne, hc]

theorem gameMatches_eq_spec (term : String) (g : Game) (h : term ≠ "") :
    gameMatches term g = specSearchMatch term g := by
  unfold gameMatches specSearchMatch
  rw [descMatch_eq_spec term g.setup h, tipsFieldMatch_eq_spec term g.tips,
    catClause_eq_spec term g.category h]

theorem searchGames_of_trim_ne (games : List Game) (q : String) (h : jsTrim q ≠ "") :
    searchGames games q = games.filter (gameMatches (jsTrim (jsToLower q))) := by
  unfold searchGames
  rw [if_neg]
  intro hc
  rcases hc with hc | hc
  · subst hc
    exact h rfl
  · exact h hc

/-! Partition and category-listing helper lemmas -/

theorem flatMap_congr_mem {α β : Type} (l : List α) (f g : α → List β)
    (h : ∀ a ∈ l, f a = g a) : l.flatMap f = l.flatMap g := by
  induction l with
  | nil => rfl
  | cons x xs ih =>
    rw [List.flatMap_cons, List.flatMap_cons, h x (by simp), ih (fun a ha => h a (by simp [ha]))]

theorem filter_partition_perm (R : List Game) (cs : List String) (hnd : cs.Nodup)
    (hcov : ∀ g ∈ R, g.category ∈ cs) :
    (cs.flatMap (fun c => R.filter (fun g => g.category == c))).Perm R := by
  induction cs generalizing R with
  | nil =>
    cases R with
    | nil => simp
    | cons x xs => exact absurd (hcov x (by simp)) (by simp)
  | cons c cs ih =>
    rw [List.flatMap_cons]
    have hnotc : c ∉ cs := (List.nodup_cons.mp hnd).1
    have hrest : cs.flatMap (fun c2 => R.filter (fun g => g.category == c2)) =
        cs.flatMap (fun c2 => (R.filter (fun g => !(g.category == c))).filter
          (fun g => g.category == c2)) := by
      apply flatMap_congr_mem
      intro c2 hc2
      have hne : c2 ≠ c := by
        intro heq
        exact hnotc (heq ▸ hc2)
      rw [List.filter_filter]
      apply List.filter_congr
      intro g hg
      by_cases hx : g.category = c2
      · simp [hx, hne]
      · simp [hx]
    rw [hrest]
    have ihp := ih (R.filter (fun g => !(g.category == c))) (List.nodup_cons.mp hnd).2 ?side
    case side =>
      intro g hg
      rw [List.mem_filter] at hg
      have hmem := hcov g hg.1
      rcases List.mem_cons.mp hmem with heq | hin
      · exfalso
        rw [heq] at hg
        simp at hg
      · exact hin
    exact (List.Perm.append_left _ ihp).trans
      (List.filter_append_perm (fun g => g.category == c) R)

theorem mem_foldl_setAdd (cats : List SourceCategory) (acc : List String) (s : String) :
    s ∈ cats.foldl (fun acc c => if c.name ∈ acc then acc else acc ++ [c.name]) acc ↔
      s ∈ acc ∨ ∃ c ∈ cats, c.name = s := by
  induction cats generalizing acc with
  | nil => simp
  | cons c cs ih =>
    rw [List.foldl_cons, ih]
    by_cases hmem : c.name ∈ acc
    · rw [if_pos hmem]
      constructor
      · rintro (h | h)
        · exact Or.inl h
        · obtain ⟨x, hx, hxs⟩ := h
          exact Or.inr ⟨x, List.mem_cons_of_mem c hx, hxs⟩
      · rintro (h | h)
        · exact Or.inl h
        · obtain ⟨x, hx, hxs⟩ := h
          rcases List.mem_cons.mp hx with rfl | hin
          · exact Or.inl (hxs ▸ hmem)
          · exact Or.inr ⟨x, hin, hxs⟩
    · rw [if_neg hmem]
      constructor
      · rintro (h | h)
        · rcases List.mem_append.mp h with ha | hb
          · exact Or.inl ha
          · have hsb : s = c.name := by simpa using hb
            exact Or.inr ⟨c, List.mem_cons_self c cs, hsb.symm⟩
        · obtain ⟨x, hx, hxs⟩ := h
          exact Or.inr ⟨x, List.mem_cons_of_mem c hx, hxs⟩
      · rintro (h | h)
        · exact Or.inl (List.mem_append.mpr (Or.inl h))
        · obtain ⟨x, hx, hxs⟩ := h
          rcases List.mem_cons.mp hx with rfl | hin
          · exact Or.inl (List.mem_append.mpr (Or.inr (by simp [hxs])))
          · exact Or.inr ⟨x, hin, hxs⟩

theorem nodup_foldl_setAdd (cats : List SourceCategory) (acc : List String) (hacc : acc.Nodup) :
    (cats.foldl (fun acc c => if c.name ∈ acc then acc else acc ++ [c.name]) acc).Nodup := by
  induction cats generalizing acc with
  | nil => exact hacc
  | cons c cs ih =>
    rw [List.foldl_cons]
    apply ih
    by_cases hmem : c.name ∈ acc
    · rw [if_pos hmem]
      exact hacc
    · rw [if_neg hmem]
      refine List.Nodup.append hacc (List.nodup_singleton _) ?_
      intro a ha hb
      rw [List.mem_singleton] at hb
      subst hb
      exact hmem ha

theorem mem_loadCategoryNames (cats : List SourceCategory) (s : String) :
    s ∈ loadCategoryNames cats ↔ ∃ c ∈ cats, c.name = s := by
  unfold loadCategoryNames
  rw [mem_foldl_setAdd]
  simp

theorem nodup_loadCategoryNames (cats : List SourceCategory) :
    (loadCategoryNames cats).Nodup :=
  nodup_foldl_setAdd cats [] List.nodup_nil

theorem mem_getCategories (cats : List SourceCategory) (s : String) :
    s ∈ getCategories cats ↔ ∃ c ∈ cats, c.name = s := by
  unfold getCategories
  rw [(List.perm_insertionSort strLe (loadCategoryNames cats)).mem_iff]
  exact mem_loadCategoryNames cats s

theorem mem_loadedGames (cats : List SourceCategory) (g : Game) :
    g ∈ loadedGames cats ↔
      ∃ c ∈ cats, ∃ g0 ∈ c.games, g = { g0 with category := c.name, categoryId := c.id } := by
  unfold loadedGames
  rw [(List.perm_insertionSort gameNameLe _).mem_iff, List.mem_flatMap]
  constructor
  · rintro ⟨c, hc, hg⟩
    obtain ⟨g0, hg0, rfl⟩ := List.mem_map.mp hg
    exact ⟨c, hc, g0, hg0, rfl⟩
  · rintro ⟨c, hc, g0, hg0, rfl⟩
    exact ⟨c, hc, List.mem_map.mpr ⟨g0, hg0, rfl⟩⟩

/-! Claim theorems -/

/-- C3: searchGames applied to any record collection with an empty or
all-whitespace query returns the collection unchanged, in order. -/
theorem c3_search_blank_identity (games : List Game) (q : String) (h : jsTrim q = "") :
    searchGames games q = games := by
  unfold searchGames
  rw [if_pos (Or.inr h)]

/-- C3 witness: a concrete all-whitespace query returns the collection. -/
theorem c3_search_blank_identity_witness :
    jsTrim "   " = "" ∧ searchGames [gFreeze, gAlphabet] "   " = [gFreeze, gAlphabet] :=
  ⟨by decide, c3_search_blank_identity [gFreeze, gAlphabet] "   " (by decide)⟩

/-- C2 counterexample: a structured tip whose tips list contains the term
but whose role label is empty does not match (while the claimed tip rule
says it does), and a record whose only occurrence of the term is such a
tip is not returned by search. -/
theorem c2_counterexample :
    tipMatch "energy" (Tip.structured "" ["Keep energy high"]) = false ∧
    specTipClaimed "energy" (Tip.structured "" ["Keep energy high"]) = true ∧
    searchGames [gEmptyRole] "energy" = [] := by decide

/-- C2 amended: a plain-string tip matches iff it contains the term; a
structured tip with a non-empty role label matches iff some string of its
tips list contains the term (with an empty role label it never matches);
the role label text is never searched: the match result does not depend
on the non-empty role label, a term occurring only in the tips list is
found and a term occurring only in a role label is not. -/
theorem c2_tips_rule :
    (∀ term s, tipMatch term (Tip.plain s) = jsIncludes (jsToLower s) term) ∧
    (∀ term role tips, role ≠ "" →
      tipMatch term (Tip.structured role tips) =
        tips.any (fun t => jsIncludes (jsToLower t) term)) ∧
    (∀ term role1 role2 tips, role1 ≠ "" → role2 ≠ "" →
      tipMatch term (Tip.structured role1 tips) = tipMatch term (Tip.structured role2 tips)) ∧
    searchGames [gPlainTip] "energy" = [gPlainTip] ∧
    searchGames [gHostTip] "energy" = [gHostTip] ∧
    searchGames [gHostTip] "host" = [] := by
  refine ⟨fun term s => rfl, fun term role tips h => ?_, fun term role1 role2 tips h1 h2 => ?_,
    by decide, by decide, by decide⟩
  · have hc : (role != "") = true := by simp [bne, h]
    simp [tipMatch, hc]
  · have hc1 : (role1 != "") = true := by simp [bne, h1]
    have hc2 : (role2 != "") = true := by simp [bne, h2]
    simp [tipMatch, hc1, hc2]

/-- C2 witness: the structured-tip rule applied at a concrete tip. -/
theorem c2_tips_rule_witness :
    ("host" : String) ≠ "" ∧
    tipMatch "energy" (Tip.structured "host" ["Keep energy high"]) =
      (["Keep energy high"].any (fun t => jsIncludes (jsToLower t) "energy")) :=
  ⟨by decide, c2_tips_rule.2.1 "energy" "host" ["Keep energy high"] (by decide)⟩

/-- C4 counterexample: with the tip rule as the specification states it
(structured tips searched regardless of role label), the spec-side
predicate selects a record that searchGames does not return: the term
zebra occurs only in a structured tip with an empty role label. -/
theorem c4_counterexample :
    searchGames [gZebraTip] "zebra" = [] ∧
    [gZebraTip].filter (specSearchMatchClaimed (jsTrim (jsToLower "zebra"))) = [gZebraTip] := by
  decide

/-- C4 amended: for every non-whitespace query, searchGames returns
exactly the records for which some searchable field (name, setup
description, rules, tips per the amended tip rule requiring a non-empty
role label, examples, tags, category) contains the trimmed lower-cased
query case-insensitively, and the result is a sublist of the input
(original relative order preserved). -/
theorem c4_search_exact (games : List Game) (q : String) (h : jsTrim q ≠ "") :
    searchGames games q = games.filter (specSearchMatch (jsTrim (jsToLower q))) ∧
    (searchGames games q).Sublist games := by
  have hterm : jsTrim (jsToLower q) ≠ "" := jsTrim_jsToLower_ne q h
  constructor
  · rw [searchGames_of_trim_ne games q h]
    apply List.filter_congr
    intro g hg
    exact gameMatches_eq_spec _ g hterm
  · rw [searchGames_of_trim_ne games q h]
    exact List.filter_sublist games

/-- C4 witness: a concrete mixed-case padded query evaluated on a small
collection. -/
theorem c4_search_exact_witness :
    jsTrim " Energy " ≠ "" ∧
    (searchGames [gPlainTip, gHostTip, gFrame] " Energy " =
        [gPlainTip, gHostTip, gFrame].filter
          (specSearchMatch (jsTrim (jsToLower " Energy "))) ∧
      (searchGames [gPlainTip, gHostTip, gFrame] " Energy ").Sublist
        [gPlainTip, gHostTip, gFrame]) :=
  ⟨by decide, c4_search_exact [gPlainTip, gHostTip, gFrame] " Energy " (by decide)⟩

/-- C1 counterexample: with an active minPlayers bound, filterGames on a
collection containing a record without playerCount aborts with the
modelled TypeError (none) instead of returning normally with the record
treated as not matching (which would be some []). -/
theorem c1_counterexample :
    filterGames [gNoPC] { minPlayers := some 2 } = none ∧
    filterGames [gNoPC] { minPlayers := some 2 } ≠ some [] := by decide

/-- C1 amended: when a player-count bound is active, a record lacking
playerCount that reaches the player-count stage (it passes the category
and difficulty checks) makes filterGames crash: the whole call returns
the modelled TypeError instead of excluding the record. -/
theorem c1_missing_playerCount_crash (R : List Game) (f : Filters) (g : Game)
    (hg : g ∈ R) (hpc : g.playerCount = none)
    (hb : truthyNat f.minPlayers = true ∨ truthyNat f.maxPlayers = true)
    (hcat : (truthyStr f.category && g.category != f.category.getD "") = false)
    (hdiff : (truthyStr f.difficulty && g.difficulty != f.difficulty.getD "") = false) :
    filterGames R f = none := by
  apply filterGames_none_of_mem f R g hg
  unfold filterPred
  rw [if_neg (by simp [hcat]), if_neg (by simp [hdiff])]
  unfold minCheck maxCheck
  rcases t : truthyNat f.minPlayers with _ | _
  · have hmax : truthyNat f.maxPlayers = true := by
      rcases hb with hb | hb
      · rw [t] at hb
        cases hb
      · exact hb
    rw [if_neg (by simp [t]), if_pos (by simp [hmax]), hpc]
  · rw [if_pos (by simp [t]), hpc]

/-- C1 witness: a concrete maxPlayers-only filter crashing on a record
without playerCount. -/
theorem c1_missing_playerCount_crash_witness :
    (gNoPC ∈ [gFreeze, gNoPC] ∧ gNoPC.playerCount = none ∧
      (truthyNat (Filters.minPlayers { maxPlayers := some 7 }) = true ∨
        truthyNat (Filters.maxPlayers { maxPlayers := some 7 }) = true)) ∧
    filterGames [gFreeze, gNoPC] { maxPlayers := some 7 } = none :=
  ⟨⟨by decide, by decide, Or.inr (by decide)⟩,
    c1_missing_playerCount_crash [gFreeze, gNoPC] { maxPlayers := some 7 } gNoPC
      (by decide) (by decide) (Or.inr (by decide)) (by decide) (by decide)⟩

/-- C5 counterexample: filterGames does not return the records satisfying
all present filter fields when a record lacks playerCount under an active
bound: it crashes instead of returning the (empty) satisfying set. -/
theorem c5_counterexample :
    filterGames [gNoPC2] { maxPlayers := some 5 } ≠
      some ([gNoPC2].filter (specFilterOk { maxPlayers := some 5 })) := by decide

/-- C5 amended: provided every record carries a playerCount whenever a
player-count bound is active, filterGames returns exactly the records
satisfying all present (non-empty, non-null) filter fields, as a sublist
of the input (order preserved); with no active filter field it returns
the collection unchanged. -/
theorem c5_filter_exact (R : List Game) (f : Filters)
    (h : ∀ g ∈ R, truthyNat f.minPlayers = true ∨ truthyNat f.maxPlayers = true →
      (g.playerCount).isSome = true) :
    filterGames R f = some (R.filter (specFilterOk f)) ∧
    (R.filter (specFilterOk f)).Sublist R ∧
    filterGames R {} = some R := by
  refine ⟨filterGames_eq_spec f R h, List.filter_sublist R, ?_⟩
  rw [filterGames_eq_spec {} R (by intro g hg hb; simp [truthyNat] at hb)]
  congr 1
  rw [List.filter_eq_self]
  intro a ha
  rfl

/-- C5 witness: a concrete filter set with category and min-players
constraints on the three scenario records. -/
theorem c5_filter_exact_witness :
    (∀ g ∈ [gFreeze, gAlphabet, gFrame],
      truthyNat (Filters.minPlayers { category := some "Opening Games", minPlayers := some 3 }) = true ∨
        truthyNat (Filters.maxPlayers { category := some "Opening Games", minPlayers := some 3 }) = true →
      (g.playerCount).isSome = true) ∧
    (filterGames [gFreeze, gAlphabet, gFrame] { category := some "Opening Games", minPlayers := some 3 } =
        some ([gFreeze, gAlphabet, gFrame].filter
          (specFilterOk { category := some "Opening Games", minPlayers := some 3 })) ∧
      ([gFreeze, gAlphabet, gFrame].filter
          (specFilterOk { category := some "Opening Games", minPlayers := some 3 })).Sublist
        [gFreeze, gAlphabet, gFrame] ∧
      filterGames [gFreeze, gAlphabet, gFrame] {} = some [gFreeze, gAlphabet, gFrame]) :=
  ⟨by decide,
    c5_filter_exact [gFreeze, gAlphabet, gFrame]
      { category := some "Opening Games", minPlayers := some 3 } (by decide)⟩

/-- C6: for a record carrying a playerCount and active (non-zero) bounds,
the record passes the player-count filter iff its min is at least the
filter's minPlayers and its max is at most the filter's maxPlayers (a
containment constraint, each bound also acting independently), and on the
specification's concrete scenario filterGames with minPlayers 3 keeps
exactly records A and C. -/
theorem c6_playerCount_containment (g : Game) (pc : PlayerCount) (m mx : Nat)
    (hpc : g.playerCount = some pc) (hm : m ≠ 0) (hmx : mx ≠ 0) :
    (filterPred { minPlayers := some m, maxPlayers := some mx } g = some true ↔
      (m ≤ pc.min ∧ pc.max ≤ mx)) ∧
    (filterPred { minPlayers := some m } g = some true ↔ m ≤ pc.min) ∧
    (filterPred { maxPlayers := some mx } g = some true ↔ pc.max ≤ mx) ∧
    filterGames [gFreeze, gAlphabet, gFrame] { minPlayers := some 3 } =
      some [gFreeze, gFrame] := by
  have hs : (g.playerCount).isSome = true := by rw [hpc]; rfl
  refine ⟨?_, ?_, ?_, by decide⟩
  · rw [filterPred_eq_spec _ g (fun _ => hs)]
    simp [specFilterOk, catOk, diffOk, minOk, maxOk, apOk, hpc, bne, hm, hmx]
  · rw [filterPred_eq_spec _ g (fun _ => hs)]
    simp [specFilterOk, catOk, diffOk, minOk, maxOk, apOk, hpc, bne, hm]
  · rw [filterPred_eq_spec _ g (fun _ => hs)]
    simp [specFilterOk, catOk, diffOk, minOk, maxOk, apOk, hpc, bne, hmx]

/-- C6 witness: the containment test at record A with bounds 3 and 12. -/
theorem c6_playerCount_containment_witness :
    (gFreeze.playerCount = some ⟨4, 10, 6⟩ ∧ (3 : Nat) ≠ 0 ∧ (12 : Nat) ≠ 0) ∧
    ((filterPred { minPlayers := some 3, maxPlayers := some 12 } gFreeze = some true ↔
        (3 ≤ (4 : Nat) ∧ (10 : Nat) ≤ 12)) ∧
      (filterPred { minPlayers := some 3 } gFreeze = some true ↔ (3 : Nat) ≤ 4) ∧
      (filterPred { maxPlayers := some 12 } gFreeze = some true ↔ (10 : Nat) ≤ 12) ∧
      filterGames [gFreeze, gAlphabet, gFrame] { minPlayers := some 3 } =
        some [gFreeze, gFrame]) :=
  ⟨⟨rfl, by decide, by decide⟩,
    c6_playerCount_containment gFreeze ⟨4, 10, 6⟩ 3 12 rfl (by decide) (by decide)⟩

/-- C7 counterexample: with a record whose category is the empty string,
the category filter for that value is inactive: filtering for the empty
category returns every record (not only those whose category equals it),
and the union over the distinct categories duplicates the other record. -/
theorem c7_counterexample :
    filterGames [g7e, g7x] { category := some "" } = some [g7e, g7x] ∧
    g7x.category ≠ "" ∧
    (((([g7e, g7x].map Game.category).dedup).flatMap
        (fun c => (filterGames [g7e, g7x] { category := some c }).getD [])).count g7x = 2) := by
  decide

/-- C7 amended: provided every record carries a non-empty category value,
filtering by any one of the distinct category values of the collection
returns exactly the records whose category equals it, and the
concatenation of the filter results over the distinct category values is
a permutation of the collection (no record lost or duplicated). -/
theorem c7_category_partition (R : List Game) (hne : ∀ g ∈ R, g.category ≠ "") :
    (∀ c ∈ (R.map Game.category).dedup,
      filterGames R { category := some c } = some (R.filter (fun g => g.category == c)) ∧
      ∀ g ∈ R.filter (fun g => g.category == c), g.category = c) ∧
    ((R.map Game.category).dedup.flatMap
        (fun c => R.filter (fun g => g.category == c))).Perm R := by
  constructor
  · intro c hc
    have hcne : c ≠ "" := by
      rw [List.mem_dedup] at hc
      obtain ⟨g, hg, hgc⟩ := List.mem_map.mp hc
      exact hgc ▸ hne g hg
    constructor
    · rw [filterGames_eq_spec _ R (by intro g hg hb; simp [truthyNat] at hb)]
      congr 1
      apply List.filter_congr
      intro g hg
      simp [specFilterOk, catOk, diffOk, minOk, maxOk, apOk, bne, hcne]
    · intro g hg
      rw [List.mem_filter] at hg
      exact eq_of_beq hg.2
  · apply filter_partition_perm R _ (List.nodup_dedup _)
    intro g hg
    rw [List.mem_dedup]
    exact List.mem_map.mpr ⟨g, hg, rfl⟩

/-- C7 witness: a three-record collection over two categories. -/
theorem c7_category_partition_witness :
    (∀ g ∈ [g7a, g7b, g7c], g.category ≠ "") ∧
    ((∀ c ∈ ([g7a, g7b, g7c].map Game.category).dedup,
      filterGames [g7a, g7b, g7c] { category := some c } =
        some ([g7a, g7b, g7c].filter (fun g => g.category == c)) ∧
      ∀ g ∈ [g7a, g7b, g7c].filter (fun g => g.category == c), g.category = c) ∧
    (([g7a, g7b, g7c].map Game.category).dedup.flatMap
        (fun c => [g7a, g7b, g7c].filter (fun g => g.category == c))).Perm [g7a, g7b, g7c]) :=
  ⟨by decide, c7_category_partition [g7a, g7b, g7c] (by decide)⟩

/-- C8 counterexample: a source grouping with no games still contributes
its name: getCategories returns b although no loaded record carries
category b, so the result is not the set of category values present
across the records. -/
theorem c8_counterexample :
    "b" ∈ getCategories [scA, scB] ∧
    (loadedGames [scA, scB]).map Game.category = ["a"] ∧
    (∀ g ∈ loadedGames [scA, scB], g.category ≠ "b") := by decide

/-- C8 amended: getCategories returns the distinct names of the source
groupings, without duplicates, sorted ascending in the default string
order; this contains the category of every loaded record, and coincides
with the category values present across the records exactly when every
grouping carries at least one game. -/
theorem c8_distinct_categories (cats : List SourceCategory) :
    (getCategories cats).Nodup ∧
    (getCategories cats).Sorted (fun a b => a ≤ b) ∧
    (∀ s, s ∈ getCategories cats ↔ ∃ c ∈ cats, c.name = s) ∧
    (∀ g ∈ loadedGames cats, g.category ∈ getCategories cats) ∧
    ((∀ c ∈ cats, c.games ≠ []) →
      ∀ s, s ∈ getCategories cats ↔ ∃ g ∈ loadedGames cats, g.category = s) := by
  refine ⟨?_, ?_, mem_getCategories cats, ?_, ?_⟩
  · exact ((List.perm_insertionSort strLe _).nodup_iff).mpr (nodup_loadCategoryNames cats)
  · have hs := List.sorted_insertionSort strLe (loadCategoryNames cats)
    exact hs.imp (fun h => h)
  · intro g hg
    obtain ⟨c, hc, g0, hg0, rfl⟩ := (mem_loadedGames cats g).mp hg
    rw [mem_getCategories]
    exact ⟨c, hc, rfl⟩
  · intro hne s
    rw [mem_getCategories]
    constructor
    · rintro ⟨c, hc, rfl⟩
      obtain ⟨g0, hg0⟩ := List.exists_mem_of_ne_nil c.games (hne c hc)
      refine ⟨{ g0 with category := c.name, categoryId := c.id }, ?_, rfl⟩
      rw [mem_loadedGames]
      exact ⟨c, hc, g0, hg0, rfl⟩
    · rintro ⟨g, hg, rfl⟩
      obtain ⟨c, hc, g0, hg0, rfl⟩ := (mem_loadedGames cats g).mp hg
      exact ⟨c, hc, rfl⟩

/-- C8 witness: the amended characterization evaluated on a single
grouping with one game. -/
theorem c8_distinct_categories_witness :
    (∀ c ∈ [scA], c.games ≠ []) ∧
    ("a" ∈ getCategories [scA] ↔ ∃ g ∈ loadedGames [scA], g.category = "a") :=
  ⟨by decide, (c8_distinct_categories [scA]).2.2.2.2 (by decide) "a"⟩

/-- C9: the combined operation equals filterGames composed after
searchGames with the filters object it builds (category and difficulty
selector values), and swapping the composition order, filtering first and
searching second, yields the same result. -/
theorem c9_composition_order (games : List Game) (q c d : String) :
    applyFiltersAndSearch games q c d =
      filterGames (searchGames games q) { category := some c, difficulty := some d } ∧
    applyFiltersAndSearch games q c d =
      (filterGames games { category := some c, difficulty := some d }).map
        (fun l => searchGames l q) := by
  have htot : ∀ R : List Game,
      filterGames R { category := some c, difficulty := some d } =
        some (R.filter (specFilterOk { category := some c, difficulty := some d })) := by
    intro R
    exact filterGames_eq_spec _ R (by intro g hg hb; simp [truthyNat] at hb)
  constructor
  · rfl
  · show filterGames (searchGames games q) _ = _
    rw [htot, htot, Option.map_some']
    congr 1
    by_cases hq : q = "" ∨ jsTrim q = ""
    · unfold searchGames
      rw [if_pos hq, if_pos hq]
    · have ht : jsTrim q ≠ "" := by
        intro hc
        exact hq (Or.inr hc)
      rw [searchGames_of_trim_ne games q ht, searchGames_of_trim_ne _ q ht,
        List.filter_filter, List.filter_filter]
      apply List.filter_congr
      intro g hg
      exact Bool.and_comm _ _

/-- C10: the filter dimensions disagree on absence: a zero minPlayers or
maxPlayers bound and an empty-string category or difficulty deactivate
those filters entirely (nothing is excluded), while audienceParticipation
false is an active constraint that excludes records whose
audienceParticipation is true (or absent). -/
theorem c10_absence_asymmetry (R : List Game) :
    filterGames R { minPlayers := some 0 } = some R ∧
    filterGames R { maxPlayers := some 0 } = some R ∧
    filterGames R { category := some "" } = some R ∧
    filterGames R { difficulty := some "" } = some R ∧
    (∀ l, filterGames R { audienceParticipation := some false } = some l →
      ∀ g ∈ l, g.audienceParticipation ≠ some true) := by
  have hid : ∀ f : Filters, truthyNat f.minPlayers = false → truthyNat f.maxPlayers = false →
      (∀ g : Game, specFilterOk f g = true) → filterGames R f = some R := by
    intro f h1 h2 hall
    rw [filterGames_eq_spec f R
      (by intro g hg hb; rw [h1, h2] at hb; rcases hb with hb | hb <;> cases hb)]
    congr 1
    rw [List.filter_eq_self]
    intro a ha
    exact hall a
  refine ⟨hid _ rfl rfl (fun g => rfl), hid _ rfl rfl (fun g => rfl),
    hid _ rfl rfl (fun g => rfl), hid _ rfl rfl (fun g => rfl), ?_⟩
  intro l hl g hg hap
  have hp := filterPred_of_mem_filterGames _ R l g hl hg
  rw [filterPred_eq_spec _ g (by intro hb; simp [truthyNat] at hb)] at hp
  simp only [Option.some.injEq] at hp
  simp [specFilterOk, catOk, diffOk, minOk, maxOk, apOk, hap] at hp

/-- C10 witness: a record with audienceParticipation true is excluded by
the false-valued filter, while a zero minPlayers bound excludes
nothing. -/
theorem c10_absence_asymmetry_witness :
    filterGames [gApT, gFreeze] { minPlayers := some 0 } = some [gApT, gFreeze] ∧
    filterGames [gApT, gFreeze] { audienceParticipation := some false } = some [] ∧
    (∀ g ∈ ([] : List Game), g.audienceParticipation ≠ some true) :=
  ⟨(c10_absence_asymmetry [gApT, gFreeze]).1, by decide,
    (c10_absence_asymmetry [gApT, gFreeze]).2.2.2.2 [] (by decide)⟩

end MutGames
